import Mathlib

/-!
Verification of the web-recorder repository: a click-path recorder
(`src/recorder.ts`, shipped as `src/unnamed/part_000`) and a replayer
(`src/automated/replay.ts`) that re-navigates the recorded path, re-extracts a
content fingerprint per page and compares the first substantial paragraph.

The development shallowly embeds the TypeScript sources: page state, the step
store, the replay loop and the recorder's click/shutdown handlers become pure
Lean functions, and the claims of the specification are settled as theorems
about those functions.
-/

namespace WebRecorder

/- ================= whitespace and `normalize` =================
Embedding of `replay.ts` line 47-49:
  function normalize(s?: string) { return (s || "").replace(/\s+/g, " ").trim(); }
`isJsWs` is the character class matched by the JavaScript regex `\s` (and
removed by `String.prototype.trim`). -/

/-- The JavaScript `\s` character class (WhiteSpace plus LineTerminator). -/
def isJsWs (c : Char) : Bool :=
  c == ' ' || c == '\t' || c == '\n' || c == '\r' || c == '\u000B' || c == '\u000C' ||
  c == '\u00A0' || c == '\u1680' || (0x2000 ≤ c.toNat && c.toNat ≤ 0x200A) ||
  c == '\u2028' || c == '\u2029' || c == '\u202F' || c == '\u205F' ||
  c == '\u3000' || c == '\uFEFF'

/-- `replace(/\s+/g, " ")`: each maximal run of whitespace becomes one space.
The boolean records whether the scan is currently inside a whitespace run. -/
def collapseAux : Bool → List Char → List Char
  | _, [] => []
  | inRun, c :: rest =>
    if isJsWs c then
      if inRun then collapseAux true rest
      else ' ' :: collapseAux true rest
    else
      c :: collapseAux false rest

/-- `s.replace(/\s+/g, " ")` on the character list of `s`. -/
def collapseWs (l : List Char) : List Char := collapseAux false l

/-- `s.trim()`: drop whitespace from the front, then (via reversal) from the back. -/
def trimWs (l : List Char) : List Char :=
  ((l.dropWhile isJsWs).reverse.dropWhile isJsWs).reverse

/-- `s.replace(/\s+/g, " ").trim()` as a character-list transform. -/
def normChars (l : List Char) : List Char := trimWs (collapseWs l)

/-- `s.replace(/\s+/g, " ").trim()` on strings. -/
def normStr (s : String) : String := String.mk (normChars s.data)

/-- `replay.ts` `normalize(s?: string)`: `(s || "").replace(/\s+/g, " ").trim()`.
An absent (`undefined`) argument behaves as the empty string. -/
def normalize (s : Option String) : String := normStr (s.getD "")

/- ================= content extraction =================
Embedding of `extractFirstP` (`replay.ts` lines 55-68, identical in the
recorder at `part_000` lines 50-66). The relevant page state is: the list of
`<p>` textContents under `#mw-content-text` (if that root exists), the list of
all document `<p>` textContents, and `document.body.innerText`. -/

/-- The page state `extractFirstP` reads. `mwContentParas = none` models an
absent `#mw-content-text` root. Each list element is one paragraph's
`textContent` (with `null` already defaulted to `""`, as `(p.textContent || "")`
does). -/
structure PageState where
  mwContentParas : Option (List String)
  allParas : List String
  bodyInnerText : String

/-- The candidate pool: scoped paragraphs first (when the root exists), then
all document paragraphs, mirroring the two `candidates.push(...)` calls. -/
def candidatesOf (pg : PageState) : List String :=
  pg.mwContentParas.getD [] ++ pg.allParas

/-- The `for (const p of candidates)` loop: the first candidate whose
collapsed, trimmed text exceeds 40 characters, returned in that form. -/
def firstLongPara : List String → Option String
  | [] => none
  | t :: rest =>
    let txt := normStr t
    if 40 < txt.length then some txt else firstLongPara rest

/-- `extractFirstP()`: paragraph scan, then the hard fallback
`document.body.innerText.replace(/\s+/g, " ").trim().slice(0, 200)`. -/
def extractFirstP (pg : PageState) : String :=
  match firstLongPara (candidatesOf pg) with
  | some txt => txt
  | none => String.mk ((normStr pg.bodyInnerText).data.take 200)

/- ================= data model =================
`replay.ts` lines 11-30. The replayer's `ContentSnapshot` has all-optional
fields; the recorder's variant always populates `title`, `h1`, `firstP` and
`metaDescription`, which here is the all-`some` case. `Step.isInitial` is the
recorder's optional marker (`part_000` line 21); click steps omit it. -/

structure ContentSnapshot where
  title : Option String
  h1 : Option String
  firstP : Option String
  metaDescription : Option String
  bodySnippet : Option String
deriving DecidableEq, Repr

structure Step where
  selector : Option String
  url : String
  target_href : String
  content : ContentSnapshot
  timestamp : Nat
  isInitial : Option Bool
deriving DecidableEq, Repr

/-- `StepResult = Step & { liveContent: ContentSnapshot; pass: boolean }`
(`replay.ts` lines 27-30); `{...step, liveContent, pass}` copies every `Step`
field and adds exactly these two. -/
structure StepResult extends Step where
  liveContent : ContentSnapshot
  pass : Bool
deriving DecidableEq, Repr

/- ================= step store =================
`saveSteps` (`part_000` lines 33-37) writes `JSON.stringify(steps, null, 2)` to
`baseline/steps.json`, replacing the whole file; `loadSteps` (`replay.ts` lines
40-45) throws if the file is absent, else returns `JSON.parse(text) as Step[]`.
The store is modelled at the JSON-document level: the file holds the JSON value
(stringify and parse are mutually inverse on JSON-representable data, so the
character stream is not modelled), and the unchecked `as Step[]` cast is
modelled by the canonical reading `decodeSteps` of that document, mirroring how
the replayer's field accesses interpret the parsed value. `JSON.stringify`
drops `undefined` properties and keeps explicit `null`s, hence optional fields
are omitted when `none` while the always-present `selector` encodes `none` as
`Json.null`. -/

inductive Json where
  | null
  | bool (b : Bool)
  | num (n : Nat)
  | str (s : String)
  | arr (elems : List Json)
  | obj (fields : List (String × Json))

/-- A key-value list field, omitted when the value is `undefined`. -/
def optStrField (k : String) (v : Option String) : List (String × Json) :=
  match v with
  | none => []
  | some s => [(k, Json.str s)]

def encodeSnapshot (c : ContentSnapshot) : Json :=
  Json.obj (optStrField "title" c.title ++ optStrField "h1" c.h1 ++
    optStrField "firstP" c.firstP ++ optStrField "metaDescription" c.metaDescription ++
    optStrField "bodySnippet" c.bodySnippet)

def encodeStep (s : Step) : Json :=
  Json.obj
    ([("selector", match s.selector with | none => Json.null | some sel => Json.str sel),
      ("url", Json.str s.url),
      ("target_href", Json.str s.target_href),
      ("content", encodeSnapshot s.content),
      ("timestamp", Json.num s.timestamp)] ++
     (match s.isInitial with | none => [] | some b => [("isInitial", Json.bool b)]))

def encodeSteps (steps : List Step) : Json :=
  Json.arr (steps.map encodeStep)

/-- JavaScript property access on a parsed object: first binding of the key. -/
def lookupField : List (String × Json) → String → Option Json
  | [], _ => none
  | (k', v) :: rest, k => if k = k' then some v else lookupField rest k

/-- Read an optional string property: absent keys are `undefined`. -/
def readOptStr (fields : List (String × Json)) (k : String) : Option (Option String) :=
  match lookupField fields k with
  | none => some none
  | some (Json.str s) => some (some s)
  | some _ => none

def decodeSnapshot : Json → Option ContentSnapshot
  | Json.obj fields => do
    let title ← readOptStr fields "title"
    let h1 ← readOptStr fields "h1"
    let firstP ← readOptStr fields "firstP"
    let metaDescription ← readOptStr fields "metaDescription"
    let bodySnippet ← readOptStr fields "bodySnippet"
    pure ⟨title, h1, firstP, metaDescription, bodySnippet⟩
  | _ => none

def decodeStep : Json → Option Step
  | Json.obj fields => do
    let selector ←
      match lookupField fields "selector" with
      | some Json.null => some none
      | some (Json.str sel) => some (some sel)
      | _ => none
    let url ← match lookupField fields "url" with
      | some (Json.str u) => some u
      | _ => none
    let target ← match lookupField fields "target_href" with
      | some (Json.str t) => some t
      | _ => none
    let content ← match lookupField fields "content" with
      | some j => decodeSnapshot j
      | none => none
    let timestamp ← match lookupField fields "timestamp" with
      | some (Json.num n) => some n
      | _ => none
    let isInitial ← match lookupField fields "isInitial" with
      | none => some none
      | some (Json.bool b) => some (some b)
      | _ => none
    pure ⟨selector, url, target, content, timestamp, isInitial⟩
  | _ => none

def decodeSteps : Json → Option (List Step)
  | Json.arr elems => elems.mapM decodeStep
  | _ => none

/-- The persisted store: the content of `baseline/steps.json`, `none` when the
file does not exist. -/
abbrev StoreFile := Option Json

/-- `saveSteps` (`part_000` lines 33-37): full-document replacement. -/
def saveSteps (steps : List Step) (_store : StoreFile) : StoreFile :=
  some (encodeSteps steps)

/-- `loadSteps` (`replay.ts` lines 40-45): throw when absent, else parse and
read the document as `Step[]`. -/
def loadSteps (store : StoreFile) : Except String (List Step) :=
  match store with
  | none => Except.error "steps.json not found. Run recorder first."
  | some doc =>
    match decodeSteps doc with
    | some steps => Except.ok steps
    | none => Except.error "steps.json does not hold an array of steps"

/- ================= replayer =================
Embedding of `main` in `replay.ts` lines 83-228. The two external oracles are
`liveOf i` (the `ContentSnapshot` that `extractContent(page)` returns after
navigating to step `i`) and `navFail i` (`some reason` when `page.goto` for
step `i` throws, e.g. a navigation timeout, with the error message). -/

/-- The two alert emails `sendFailureEmail` can carry: the mismatch email of
lines 158-166 (subject "Web Replay Verification Failed", body from
`buildMinimalFailureEmail` with 1-based step number, URL, recorded and live
firstP) and the crash email of lines 175-184 (subject "Web Replay Crashed",
body carrying the error reason). -/
inductive Alert where
  | mismatch (step : Nat) (url : String) (recordedFirstP : String) (liveFirstP : String)
  | crashed (reason : String)
deriving DecidableEq, Repr

/-- `recordedFP || "<empty>"` / `liveFP || "<empty>"` in the email payload. -/
def orEmpty (s : String) : String := if s = "" then "<empty>" else s

/-- The mismatch alert sent for 0-based step `i` (the email shows `i + 1`). -/
def mkMismatchAlert (i : Nat) (step : Step) (recordedFP liveFP : String) : Alert :=
  Alert.mismatch (i + 1) step.target_href (orEmpty recordedFP) (orEmpty liveFP)

/-- Line 142: `const pass = recordedFP === liveFP;` with both sides normalized
(lines 140-141). The only inputs are the two `firstP` fields. -/
def passOf (recorded live : ContentSnapshot) : Bool :=
  normalize recorded.firstP == normalize live.firstP

/-- The mutable state of the replay run: `results`, the emails sent so far,
the write-only `hasMismatch` flag (line 112), the `failureEmailSent` latch
(line 114) and whether the `try` block was aborted by a throw. -/
structure LoopState where
  results : List StepResult
  alerts : List Alert
  hasMismatch : Bool
  failureEmailSent : Bool
  crashed : Bool
deriving DecidableEq, Repr

def initLoopState : LoopState := ⟨[], [], false, false, false⟩

/-- The `for (let i = 0; i < steps.length; i++)` loop (lines 125-170) wrapped
in `try`: navigating to a step may throw (`navFail`), which aborts the loop and
lands in the `catch` block (lines 171-185), sending the crash alert only when
the `failureEmailSent` latch is still clear. A completed step pushes a
`StepResult` built by spreading the recorded step, and a failed comparison
sends the mismatch alert only when the latch is clear, then sets it. -/
def replayLoop (liveOf : Nat → ContentSnapshot) (navFail : Nat → Option String) :
    List Step → Nat → LoopState → LoopState
  | [], _, st => st
  | step :: rest, i, st =>
    match navFail i with
    | some reason =>
      { st with
        alerts := if st.failureEmailSent then st.alerts
                  else st.alerts ++ [Alert.crashed reason],
        crashed := true }
    | none =>
      let live := liveOf i
      let pass := passOf step.content live
      let st' : LoopState :=
        { results := st.results ++ [StepResult.mk step live pass],
          alerts := if !pass && !st.failureEmailSent
                    then st.alerts ++
                      [mkMismatchAlert i step (normalize step.content.firstP)
                        (normalize live.firstP)]
                    else st.alerts,
          hasMismatch := st.hasMismatch || !pass,
          failureEmailSent := st.failureEmailSent || !pass,
          crashed := st.crashed }
      replayLoop liveOf navFail rest (i + 1) st'

/-- The replayer's environment surface (lines 99-104): the five required
alert-transport variables plus the headless toggle, each `none` when unset. -/
structure Env where
  emailHost : Option String
  emailPort : Option String
  emailUser : Option String
  emailPassword : Option String
  alertTo : Option String
  headless : Option String
deriving DecidableEq, Repr

/-- JavaScript truthiness of a `string | undefined` environment value:
`undefined` and `""` are falsy. -/
def truthy : Option String → Bool
  | none => false
  | some s => !(s == "")

/-- Line 106: `!EMAIL_HOST || !EMAIL_PORT || !EMAIL_USER || !EMAIL_PASS ||
!ALERT_TO` negated. -/
def envComplete (env : Env) : Bool :=
  truthy env.emailHost && truthy env.emailPort && truthy env.emailUser &&
  truthy env.emailPassword && truthy env.alertTo

/-- What a whole replayer process run produces after the browser phase:
accumulated results and alerts, the unconditional `finally { browser.close() }`
(line 187), and the report written from `results` (lines 192-226, one block per
`StepResult`). -/
structure RunOutcome where
  results : List StepResult
  alerts : List Alert
  browserClosed : Bool
  reportEntries : List StepResult
deriving DecidableEq, Repr

/-- A replayer process run: either an early `process.exit` before the browser
is launched (lines 83-109), or a completed browser phase (exit code 0). -/
inductive MainOutcome where
  | earlyExit (code : Nat)
  | completed (run : RunOutcome)
deriving DecidableEq, Repr

/-- Whether the run reached `chromium.launch` (line 116). -/
def browserLaunched : MainOutcome → Bool
  | MainOutcome.earlyExit _ => false
  | MainOutcome.completed _ => true

/-- Whether the process exited early, and with which code. -/
def exitsNonZero : MainOutcome → Bool
  | MainOutcome.earlyExit code => code != 0
  | MainOutcome.completed _ => false

/-- `main` (`replay.ts` lines 83-228): load the store (exit 1 on a missing
file, line 90), exit 0 on an empty step list (line 95), exit 1 on missing
email configuration (line 108) — all before `chromium.launch` — then run the
replay loop, close the browser and write the report from the results. -/
def replayMain (store : StoreFile) (env : Env) (liveOf : Nat → ContentSnapshot)
    (navFail : Nat → Option String) : MainOutcome :=
  match loadSteps store with
  | Except.error _ => MainOutcome.earlyExit 1
  | Except.ok steps =>
    if steps.isEmpty then MainOutcome.earlyExit 0
    else if !envComplete env then MainOutcome.earlyExit 1
    else
      let fin := replayLoop liveOf navFail steps 0 initLoopState
      MainOutcome.completed
        { results := fin.results, alerts := fin.alerts,
          browserClosed := true, reportEntries := fin.results }

/- Specification helpers for the replay loop (used to state its closed form;
translated from the loop body, not from the spec's words). -/

/-- The `StepResult` the loop pushes for the step at 0-based index `i`. -/
def stepResultAt (liveOf : Nat → ContentSnapshot) (i : Nat) (step : Step) : StepResult :=
  StepResult.mk step (liveOf i) (passOf step.content (liveOf i))

/-- The results of a crash-free replay of `steps` starting at index `i`. -/
def expectedResults (liveOf : Nat → ContentSnapshot) : Nat → List Step → List StepResult
  | _, [] => []
  | i, s :: rest => stepResultAt liveOf i s :: expectedResults liveOf (i + 1) rest

/-- The mismatch alert of the first failing step (empty when all pass). -/
def firstMismatchAlert (liveOf : Nat → ContentSnapshot) : Nat → List Step → List Alert
  | _, [] => []
  | i, s :: rest =>
    if passOf s.content (liveOf i) then firstMismatchAlert liveOf (i + 1) rest
    else [mkMismatchAlert i s (normalize s.content.firstP) (normalize (liveOf i).firstP)]

/-- Whether any step of the segment fails its comparison. -/
def anyFail (liveOf : Nat → ContentSnapshot) : Nat → List Step → Bool
  | _, [] => false
  | i, s :: rest => !passOf s.content (liveOf i) || anyFail liveOf (i + 1) rest

/-- Whether the step at 0-based index `k` of `steps` fails its comparison. -/
def failsAtIdx (steps : List Step) (liveOf : Nat → ContentSnapshot) (k : Nat) : Bool :=
  match steps[k]? with
  | some s => !passOf s.content (liveOf k)
  | none => false

/- ================= recorder =================
Embedding of the recorder (`part_000`): the injected click listener (lines
144-169), the host-side `recordClick` binding guard (line 118) and the
`gracefulExit` shutdown latch (lines 95-108). -/

/-- A clicked anchor as the listener sees it: `a.id` (empty when absent), the
raw `href` attribute (`getAttribute("href")`, `none` when absent) and the
resolved `a.href` property (empty exactly when no `href` attribute exists;
any present attribute, even `""`, resolves against the document URL to a
non-empty absolute URL). -/
structure Anchor where
  id : String
  hrefAttr : Option String
  href : String
deriving DecidableEq, Repr

/-- The payload the listener forwards to the host binding. -/
structure ClickPayload where
  href : String
  selector : String
deriving DecidableEq, Repr

/-- Lines 154-157: `a#<id>` when the anchor has an id, else
`a[href="<raw-attribute>"]` when `getAttribute("href")` is truthy, else the
empty string. -/
def deriveSelector (a : Anchor) : String :=
  if a.id ≠ "" then "a#" ++ a.id
  else
    match a.hrefAttr with
    | some h => if h ≠ "" then "a[href=\"" ++ h ++ "\"]" else ""
    | none => ""

/-- The click listener (lines 148-168): bail out when `a.href` is falsy
(line 152), derive the selector, bail out when it is empty (line 159), else
forward the payload. -/
def clickListener (a : Anchor) : Option ClickPayload :=
  if a.href = "" then none
  else
    let selector := deriveSelector a
    if selector = "" then none
    else some ⟨a.href, selector⟩

/-- The host-side guard (line 118): `if (!payload.selector || payload.selector
=== "a") return;` — `true` when the binding goes on to record a step. -/
def recordClickAccepts (p : ClickPayload) : Bool :=
  !(p.selector == "" || p.selector == "a")

/-- Whether a click on anchor `a` results in a recorded step. -/
def clickRecorded (a : Anchor) : Bool :=
  match clickListener a with
  | none => false
  | some p => recordClickAccepts p

/-- The state `gracefulExit` (lines 95-102) touches: the `shuttingDown` latch
and counters for the externally observable effects, one persisted save
(`saveSteps`, line 99) and one process termination (`process.exit(0)`,
line 101). -/
structure RecorderState where
  shuttingDown : Bool
  saveCount : Nat
  exitCount : Nat
deriving DecidableEq, Repr

def recorderInit : RecorderState := ⟨false, 0, 0⟩

/-- `gracefulExit`: return immediately when the latch is set, else set it,
save once and exit once. -/
def gracefulExit (st : RecorderState) : RecorderState :=
  if st.shuttingDown then st
  else ⟨true, st.saveCount + 1, st.exitCount + 1⟩

/- ================= predicates for the normalization proofs ================= -/

/-- Every whitespace character of the list is a plain space. -/
def allSp (l : List Char) : Prop := ∀ c ∈ l, isJsWs c = true → c = ' '

/-- No two adjacent characters are both whitespace. -/
def noAdj (l : List Char) : Prop :=
  List.Chain' (fun a b => ¬(isJsWs a = true ∧ isJsWs b = true)) l

/- ================= concrete values for evaluation ================= -/

def exSnapshot : ContentSnapshot :=
  ⟨some "Recorded Title", some "Heading",
   some "This recorded paragraph easily exceeds forty characters of text.",
   some "Description", none⟩

def exSnapshotLive : ContentSnapshot :=
  ⟨some "Other Title", some "Other Heading",
   some "Completely different live paragraph text, also past forty characters.",
   some "Other Description", none⟩

def exStep : Step :=
  ⟨some "a#main", "https://example.org/", "https://example.org/a", exSnapshot, 1000, none⟩

def exStep2 : Step :=
  ⟨some "a[href=\"/b\"]", "https://example.org/a", "https://example.org/b", exSnapshot, 2000,
   none⟩

def exEnv : Env :=
  ⟨some "smtp.example.org", some "587", some "replaybot", some "secret",
   some "alerts@example.org", none⟩

def exLiveMatch : Nat → ContentSnapshot := fun _ => exSnapshot

def exLiveMismatch : Nat → ContentSnapshot := fun _ => exSnapshotLive

def exNoNavFail : Nat → Option String := fun _ => none

def exNavFailAt1 : Nat → Option String :=
  fun i => if i = 1 then some "page.goto: Timeout 30000ms exceeded." else none

/- ================= replay loop lemmas ================= -/

theorem expectedResults_length (liveOf : Nat → ContentSnapshot) :
    ∀ (i : Nat) (steps : List Step), (expectedResults liveOf i steps).length = steps.length := by
  intro i steps
  induction steps generalizing i with
  | nil => rfl
  | cons s rest ih => simp [expectedResults, ih]

theorem expectedResults_getElem? (liveOf : Nat → ContentSnapshot) :
    ∀ (steps : List Step) (i j : Nat),
      (expectedResults liveOf i steps)[j]? = (steps[j]?).map (stepResultAt liveOf (i + j)) := by
  intro steps
  induction steps with
  | nil => intro i j; simp [expectedResults]
  | cons s rest ih =>
    intro i j
    cases j with
    | zero => simp [expectedResults]
    | succ m =>
      simp only [expectedResults, List.getElem?_cons_succ]
      rw [ih (i + 1) m]
      have harith : i + 1 + m = i + (m + 1) := by omega
      rw [harith]

/-- Closed form of the replay loop when no navigation in range fails. -/
theorem replayLoop_no_crash (liveOf : Nat → ContentSnapshot) (navFail : Nat → Option String) :
    ∀ (steps : List Step) (i : Nat) (st : LoopState),
      (∀ j, j < steps.length → navFail (i + j) = none) →
      replayLoop liveOf navFail steps i st =
        { results := st.results ++ expectedResults liveOf i steps,
          alerts := st.alerts ++
            (if st.failureEmailSent then [] else firstMismatchAlert liveOf i steps),
          hasMismatch := st.hasMismatch || anyFail liveOf i steps,
          failureEmailSent := st.failureEmailSent || anyFail liveOf i steps,
          crashed := st.crashed } := by
  intro steps
  induction steps with
  | nil =>
    intro i st _
    rcases st with ⟨res, al, hm, fes, cr⟩
    simp [replayLoop, expectedResults, firstMismatchAlert, anyFail]
  | cons s rest ih =>
    intro i st h
    have h0 : navFail i = none := by simpa using h 0 (Nat.succ_pos _)
    have hrest : ∀ j, j < rest.length → navFail (i + 1 + j) = none := by
      intro j hj
      have := h (j + 1) (by simpa using Nat.succ_lt_succ hj)
      have harith : i + (j + 1) = i + 1 + j := by omega
      rwa [harith] at this
    rcases st with ⟨res, al, hm, fes, cr⟩
    simp only [replayLoop, h0]
    rw [ih (i + 1) _ hrest]
    cases hp : passOf s.content (liveOf i) <;> cases fes <;>
      simp [expectedResults, firstMismatchAlert, anyFail, stepResultAt, hp,
        Bool.or_assoc, List.append_assoc]

/-- Closed form of the replay loop when the navigation of the step at relative
position `k` throws and all earlier navigations succeed. -/
theorem replayLoop_crash (liveOf : Nat → ContentSnapshot) (navFail : Nat → Option String) :
    ∀ (k : Nat) (steps : List Step) (i : Nat) (st : LoopState) (r : String),
      k < steps.length →
      (∀ j, j < k → navFail (i + j) = none) →
      navFail (i + k) = some r →
      replayLoop liveOf navFail steps i st =
        { results := st.results ++ expectedResults liveOf i (steps.take k),
          alerts := st.alerts ++
            (if st.failureEmailSent then []
             else if anyFail liveOf i (steps.take k) then
               firstMismatchAlert liveOf i (steps.take k)
             else [Alert.crashed r]),
          hasMismatch := st.hasMismatch || anyFail liveOf i (steps.take k),
          failureEmailSent := st.failureEmailSent || anyFail liveOf i (steps.take k),
          crashed := true } := by
  intro k
  induction k with
  | zero =>
    intro steps i st r hk _ hcrash
    cases steps with
    | nil => simp at hk
    | cons s rest =>
      rcases st with ⟨res, al, hm, fes, cr⟩
      have h0 : navFail i = some r := by simpa using hcrash
      cases fes <;>
        simp [replayLoop, h0, expectedResults, firstMismatchAlert, anyFail]
  | succ m ih =>
    intro steps i st r hk hpre hcrash
    cases steps with
    | nil => simp at hk
    | cons s rest =>
      have h0 : navFail i = none := by simpa using hpre 0 (Nat.succ_pos _)
      have hpre' : ∀ j, j < m → navFail (i + 1 + j) = none := by
        intro j hj
        have := hpre (j + 1) (by omega)
        have harith : i + (j + 1) = i + 1 + j := by omega
        rwa [harith] at this
      have hcrash' : navFail (i + 1 + m) = some r := by
        have harith : i + (m + 1) = i + 1 + m := by omega
        rwa [harith] at hcrash
      have hm' : m < rest.length := by simpa using Nat.lt_of_succ_lt_succ hk
      rcases st with ⟨res, al, hm2, fes, cr⟩
      simp only [replayLoop, h0]
      rw [ih rest (i + 1) _ r hm' hpre' hcrash']
      cases hp : passOf s.content (liveOf i) <;> cases fes <;>
        simp [expectedResults, firstMismatchAlert, anyFail, stepResultAt, hp,
          Bool.or_assoc, List.append_assoc]

/-- The alert latch admits at most one alert in any run. -/
theorem replayLoop_alerts_le_one (liveOf : Nat → ContentSnapshot)
    (navFail : Nat → Option String) :
    ∀ (steps : List Step) (i : Nat) (st : LoopState),
      (st.failureEmailSent = false → st.alerts = []) →
      st.alerts.length ≤ 1 →
      (replayLoop liveOf navFail steps i st).alerts.length ≤ 1 := by
  intro steps
  induction steps with
  | nil => intro i st _ h2; simpa [replayLoop] using h2
  | cons s rest ih =>
    intro i st h1 h2
    rcases st with ⟨res, al, hm, fes, cr⟩
    cases hnav : navFail i with
    | some reason =>
      cases fes with
      | false =>
        have : al = [] := h1 rfl
        simp [replayLoop, hnav, this]
      | true => simpa [replayLoop, hnav] using h2
    | none =>
      simp only [replayLoop, hnav]
      cases hp : passOf s.content (liveOf i) with
      | false =>
        cases fes with
        | false =>
          have hal : al = [] := h1 rfl
          apply ih
          · intro hcontra; simp [hp] at hcontra
          · simp [hp, hal]
        | true =>
          apply ih
          · intro hcontra; simp at hcontra
          · simpa [hp] using h2
      | true =>
        apply ih
        · intro hfes; exact h1 (by simpa [hp] using hfes)
        · simpa [hp] using h2

theorem firstMismatchAlert_of_no_fail (liveOf : Nat → ContentSnapshot) :
    ∀ (steps : List Step) (i : Nat),
      anyFail liveOf i steps = false → firstMismatchAlert liveOf i steps = [] := by
  intro steps
  induction steps with
  | nil => intro i _; rfl
  | cons s rest ih =>
    intro i h
    simp only [anyFail, Bool.or_eq_false_iff] at h
    simp only [firstMismatchAlert]
    rw [if_pos (by simpa using h.1)]
    exact ih (i + 1) h.2

theorem crashed_not_mem_firstMismatchAlert (liveOf : Nat → ContentSnapshot) :
    ∀ (steps : List Step) (i : Nat) (reason : String),
      Alert.crashed reason ∉ firstMismatchAlert liveOf i steps := by
  intro steps
  induction steps with
  | nil => intro i reason; simp [firstMismatchAlert]
  | cons s rest ih =>
    intro i reason
    simp only [firstMismatchAlert]
    by_cases hp : passOf s.content (liveOf i) = true
    · rw [if_pos hp]; exact ih (i + 1) reason
    · rw [if_neg hp]; simp [mkMismatchAlert]

/-- When the first failing comparison sits at position `k`, the loop's alert
list is exactly that step's mismatch alert. -/
theorem firstMismatchAlert_eq_of_first_fail (liveOf : Nat → ContentSnapshot) :
    ∀ (steps : List Step) (i k : Nat) (sk : Step),
      steps[k]? = some sk →
      passOf sk.content (liveOf (i + k)) = false →
      (∀ j, j < k → ∀ sj, steps[j]? = some sj → passOf sj.content (liveOf (i + j)) = true) →
      firstMismatchAlert liveOf i steps =
        [mkMismatchAlert (i + k) sk (normalize sk.content.firstP)
          (normalize (liveOf (i + k)).firstP)] := by
  intro steps
  induction steps with
  | nil => intro i k sk hk; simp at hk
  | cons s rest ih =>
    intro i k sk hk hfail hmin
    cases k with
    | zero =>
      have hs : s = sk := by simpa using hk
      subst hs
      simp only [firstMismatchAlert]
      rw [if_neg (by simpa using hfail)]
      simp
    | succ m =>
      have h0 : passOf s.content (liveOf i) = true := by
        have := hmin 0 (Nat.succ_pos _) s (by simp)
        simpa using this
      simp only [firstMismatchAlert]
      rw [if_pos h0]
      have hk' : rest[m]? = some sk := by simpa using hk
      have harith : i + 1 + m = i + (m + 1) := by omega
      have hfail' : passOf sk.content (liveOf (i + 1 + m)) = false := by
        rwa [harith]
      have hmin' : ∀ j, j < m → ∀ sj, rest[j]? = some sj →
          passOf sj.content (liveOf (i + 1 + j)) = true := by
        intro j hj sj hsj
        have harith2 : i + 1 + j = i + (j + 1) := by omega
        rw [harith2]
        exact hmin (j + 1) (by omega) sj (by simpa using hsj)
      rw [ih (i + 1) m sk hk' hfail' hmin']
      rw [harith]

/- ================= store round-trip lemmas ================= -/

theorem readOptStr_lookup_absent (fields : List (String × Json)) (k : String)
    (h : lookupField fields k = none) : readOptStr fields k = some none := by
  simp [readOptStr, h]

theorem decodeSnapshot_encodeSnapshot (c : ContentSnapshot) :
    decodeSnapshot (encodeSnapshot c) = some c := by
  rcases c with ⟨t, h1, fp, md, bs⟩
  rcases t with _ | t <;> rcases h1 with _ | h1 <;> rcases fp with _ | fp <;>
    rcases md with _ | md <;> rcases bs with _ | bs <;>
    simp [encodeSnapshot, decodeSnapshot, optStrField, readOptStr, lookupField]

theorem decodeStep_encodeStep (s : Step) : decodeStep (encodeStep s) = some s := by
  rcases s with ⟨sel, url, target, content, ts, ii⟩
  have hc := decodeSnapshot_encodeSnapshot content
  rcases sel with _ | sel <;> rcases ii with _ | ii <;>
    simp [encodeStep, decodeStep, lookupField, hc]

theorem decodeSteps_encodeSteps (steps : List Step) :
    decodeSteps (encodeSteps steps) = some steps := by
  induction steps with
  | nil => rfl
  | cons s rest ih =>
    simp only [encodeSteps, decodeSteps, List.map_cons, List.mapM_cons]
    rw [decodeStep_encodeStep]
    simp only [encodeSteps, decodeSteps] at ih
    cases hrest : rest.map encodeStep |>.mapM decodeStep with
    | none => rw [hrest] at ih; simp at ih
    | some l =>
      rw [hrest] at ih
      simp at ih
      simp [hrest, ih]

theorem loadSteps_saveSteps (steps : List Step) (store : StoreFile) :
    loadSteps (saveSteps steps store) = Except.ok steps := by
  simp [loadSteps, saveSteps, decodeSteps_encodeSteps]

/- ================= normalization lemmas =================
`normalize` is idempotent: its output contains only single, interior spaces as
whitespace, and re-collapsing and re-trimming such a string changes nothing.
`allSp` and `noAdj` are the two invariants of collapsed text. -/

theorem collapseAux_true_head :
    ∀ (l : List Char) (c : Char) (cs : List Char),
      collapseAux true l = c :: cs → isJsWs c = false := by
  intro l
  induction l with
  | nil => intro c cs h; simp [collapseAux] at h
  | cons d rest ih =>
    intro c cs h
    by_cases hd : isJsWs d = true
    · rw [collapseAux, if_pos hd, if_pos rfl] at h
      exact ih c cs h
    · rw [collapseAux, if_neg hd] at h
      obtain ⟨rfl, -⟩ := List.cons.injEq .. ▸ h
      simpa using hd

theorem allSp_collapseAux : ∀ (l : List Char) (b : Bool), allSp (collapseAux b l) := by
  intro l
  induction l with
  | nil => intro b c hc; simp [collapseAux] at hc
  | cons d rest ih =>
    intro b c hc hw
    by_cases hd : isJsWs d = true
    · cases b with
      | true =>
        rw [collapseAux, if_pos hd, if_pos rfl] at hc
        exact ih true c hc hw
      | false =>
        rw [collapseAux, if_pos hd, if_neg (by simp)] at hc
        rcases List.mem_cons.mp hc with h | h
        · exact h
        · exact ih true c h hw
    · rw [collapseAux, if_neg hd] at hc
      rcases List.mem_cons.mp hc with h | h
      · subst h; exact absurd hw hd
      · exact ih false c h hw

theorem noAdj_collapseAux : ∀ (l : List Char) (b : Bool), noAdj (collapseAux b l) := by
  intro l
  induction l with
  | nil => intro b; simp [collapseAux, noAdj]
  | cons d rest ih =>
    intro b
    by_cases hd : isJsWs d = true
    · cases b with
      | true =>
        rw [collapseAux, if_pos hd, if_pos rfl]
        exact ih true
      | false =>
        rw [collapseAux, if_pos hd, if_neg (by simp)]
        refine List.chain'_cons'.mpr ⟨?_, ih true⟩
        intro y hy
        cases hcl : collapseAux true rest with
        | nil => rw [hcl] at hy; simp at hy
        | cons c cs =>
          rw [hcl] at hy
          simp only [List.head?_cons, Option.mem_def, Option.some.injEq] at hy
          subst hy
          intro hpair
          exact absurd hpair.2 (by simp [collapseAux_true_head rest c cs hcl])
    · rw [collapseAux, if_neg hd]
      refine List.chain'_cons'.mpr ⟨?_, ih false⟩
      intro y _ hpair
      exact hd hpair.1

theorem mem_dropWhile_mem (q : Char → Bool) :
    ∀ (l : List Char) (c : Char), c ∈ l.dropWhile q → c ∈ l := by
  intro l
  induction l with
  | nil => intro c h; exact h
  | cons d rest ih =>
    intro c h
    rw [List.dropWhile_cons] at h
    by_cases hd : q d = true
    · rw [if_pos hd] at h
      exact List.mem_cons_of_mem d (ih c h)
    · rw [if_neg hd] at h
      exact h

theorem noAdj_dropWhile (q : Char → Bool) :
    ∀ l : List Char, noAdj l → noAdj (l.dropWhile q) := by
  intro l
  induction l with
  | nil => intro h; exact h
  | cons d rest ih =>
    intro h
    rw [List.dropWhile_cons]
    by_cases hd : q d = true
    · rw [if_pos hd]
      exact ih (List.chain'_cons'.mp h).2
    · rw [if_neg hd]
      exact h

theorem noAdj_reverse (l : List Char) (h : noAdj l) : noAdj l.reverse := by
  unfold noAdj at h ⊢
  exact List.chain'_reverse.mpr (List.Chain'.imp (fun a b hr hab => hr ⟨hab.2, hab.1⟩) h)

theorem head_dropWhile_false (q : Char → Bool) :
    ∀ (l : List Char) (c : Char) (cs : List Char),
      l.dropWhile q = c :: cs → q c = false := by
  intro l
  induction l with
  | nil => intro c cs h; simp at h
  | cons d rest ih =>
    intro c cs h
    rw [List.dropWhile_cons] at h
    by_cases hd : q d = true
    · rw [if_pos hd] at h
      exact ih c cs h
    · rw [if_neg hd] at h
      obtain ⟨rfl, -⟩ := List.cons.injEq .. ▸ h
      simpa using hd

theorem dropWhile_eq_self_of_head (q : Char → Bool) (l : List Char)
    (h : ∀ c cs, l = c :: cs → q c = false) : l.dropWhile q = l := by
  cases l with
  | nil => rfl
  | cons c rest => rw [List.dropWhile_cons, if_neg (by simp [h c rest rfl])]

/-- `trimWs l` is an initial segment of `l.dropWhile isJsWs`. -/
theorem trimWs_append (l : List Char) :
    ∃ u, trimWs l ++ u = l.dropWhile isJsWs := by
  refine ⟨((l.dropWhile isJsWs).reverse.takeWhile isJsWs).reverse, ?_⟩
  have h := List.takeWhile_append_dropWhile isJsWs (l.dropWhile isJsWs).reverse
  calc trimWs l ++ ((l.dropWhile isJsWs).reverse.takeWhile isJsWs).reverse
      = (((l.dropWhile isJsWs).reverse.takeWhile isJsWs) ++
          ((l.dropWhile isJsWs).reverse.dropWhile isJsWs)).reverse := by
        rw [List.reverse_append]; rfl
    _ = l.dropWhile isJsWs := by rw [h, List.reverse_reverse]

theorem trimWs_head_false (l : List Char) :
    ∀ (c : Char) (cs : List Char), trimWs l = c :: cs → isJsWs c = false := by
  intro c cs h
  obtain ⟨u, hu⟩ := trimWs_append l
  rw [h, List.cons_append] at hu
  exact head_dropWhile_false isJsWs l c (cs ++ u) hu.symm

theorem trimWs_reverse_head_false (l : List Char) :
    ∀ (c : Char) (cs : List Char), (trimWs l).reverse = c :: cs → isJsWs c = false := by
  intro c cs h
  rw [trimWs, List.reverse_reverse] at h
  exact head_dropWhile_false isJsWs (l.dropWhile isJsWs).reverse c cs h

theorem trimWs_eq_self (l : List Char)
    (h1 : ∀ c cs, l = c :: cs → isJsWs c = false)
    (h2 : ∀ c cs, l.reverse = c :: cs → isJsWs c = false) : trimWs l = l := by
  rw [trimWs, dropWhile_eq_self_of_head isJsWs l h1,
    dropWhile_eq_self_of_head isJsWs l.reverse h2, List.reverse_reverse]

theorem allSp_trimWs (l : List Char) (h : allSp l) : allSp (trimWs l) := by
  intro c hc hw
  apply h c _ hw
  rw [trimWs] at hc
  have h1 := List.mem_reverse.mp hc
  have h2 := mem_dropWhile_mem isJsWs _ c h1
  have h3 := List.mem_reverse.mp h2
  exact mem_dropWhile_mem isJsWs l c h3

theorem noAdj_trimWs (l : List Char) (h : noAdj l) : noAdj (trimWs l) := by
  rw [trimWs]
  exact noAdj_reverse _ (noAdj_dropWhile isJsWs _ (noAdj_reverse _ (noAdj_dropWhile isJsWs l h)))

/-- On a list whose whitespace is exactly single interior spaces, the collapse
pass is the identity. -/
theorem collapseAux_eq_self :
    ∀ l : List Char, allSp l → noAdj l →
      collapseAux false l = l ∧
      ((∀ c cs, l = c :: cs → isJsWs c = false) → collapseAux true l = l) := by
  intro l
  induction l with
  | nil => exact fun _ _ => ⟨rfl, fun _ => rfl⟩
  | cons d rest ih =>
    intro hAll hAdj
    have hAllRest : allSp rest := fun c hc => hAll c (List.mem_cons_of_mem d hc)
    have hAdjRest : noAdj rest := (List.chain'_cons'.mp hAdj).2
    obtain ⟨ihf, iht⟩ := ih hAllRest hAdjRest
    constructor
    · by_cases hd : isJsWs d = true
      · have hsp : d = ' ' := hAll d (List.mem_cons_self d rest) hd
        rw [collapseAux, if_pos hd, if_neg (by simp)]
        have hrest : collapseAux true rest = rest := by
          apply iht
          intro c cs hcs
          have hy := (List.chain'_cons'.mp hAdj).1 c (by rw [hcs]; simp)
          by_contra hwc
          exact hy ⟨hd, by simpa using hwc⟩
        rw [hrest, hsp]
      · rw [collapseAux, if_neg hd, ihf]
    · intro hhead
      have hd : isJsWs d = false := hhead d rest rfl
      rw [collapseAux, if_neg (by simp [hd]), ihf]

theorem normChars_idem (l : List Char) : normChars (normChars l) = normChars l := by
  have hAll : allSp (trimWs (collapseWs l)) :=
    allSp_trimWs _ (allSp_collapseAux l false)
  have hAdj : noAdj (trimWs (collapseWs l)) :=
    noAdj_trimWs _ (noAdj_collapseAux l false)
  have hc : collapseWs (trimWs (collapseWs l)) = trimWs (collapseWs l) :=
    (collapseAux_eq_self _ hAll hAdj).1
  have ht : trimWs (trimWs (collapseWs l)) = trimWs (collapseWs l) :=
    trimWs_eq_self _ (trimWs_head_false (collapseWs l)) (trimWs_reverse_head_false (collapseWs l))
  show trimWs (collapseWs (trimWs (collapseWs l))) = trimWs (collapseWs l)
  rw [hc, ht]

theorem normStr_idem (s : String) : normStr (normStr s) = normStr s :=
  congrArg String.mk (normChars_idem s.data)

/- ================= claim theorems ================= -/

/-- C1 (code bug, evaluated at the failing input): on a content-free page —
no paragraph elements anywhere and an empty `document.body.innerText`, e.g.
`about:blank` — `extractFirstP` returns the empty string, so its length is 0,
not `> 0` as the claim (and the code's own comments `Wikipedia-safe,
NEVER-empty firstP` and `hard fallback (guaranteed)`) state: the hard fallback
collapses, trims and truncates the empty body text, which is still empty. -/
theorem c1_extractFirstP_empty_page :
    extractFirstP ⟨none, [], ""⟩ = "" ∧ (extractFirstP ⟨none, [], ""⟩).length = 0 :=
  ⟨rfl, rfl⟩

/-- C2: in a crash-free replay, one `StepResult` is recorded per step whether
it passes or fails (the loop is not short-circuited), each result's `pass` is
`true` exactly when the whitespace-collapsed, trimmed recorded `firstP` equals
the whitespace-collapsed, trimmed live `firstP`, and the comparison depends
only on the two `firstP` fields — `title`, `h1` and `metaDescription` never
affect it. -/
theorem c2_pass_iff_normalized_firstP_eq (steps : List Step)
    (liveOf : Nat → ContentSnapshot) (navFail : Nat → Option String)
    (hnav : ∀ j, j < steps.length → navFail j = none) :
    ((replayLoop liveOf navFail steps 0 initLoopState).results.length = steps.length) ∧
    (∀ i r, (replayLoop liveOf navFail steps 0 initLoopState).results[i]? = some r →
      ∀ s, steps[i]? = some s →
        (r.pass = true ↔ normalize s.content.firstP = normalize (liveOf i).firstP)) ∧
    (∀ c₁ c₂ l₁ l₂ : ContentSnapshot, c₁.firstP = c₂.firstP → l₁.firstP = l₂.firstP →
      passOf c₁ l₁ = passOf c₂ l₂) := by
  have hnav' : ∀ j, j < steps.length → navFail (0 + j) = none := by
    intro j hj; simpa using hnav j hj
  rw [replayLoop_no_crash liveOf navFail steps 0 initLoopState hnav']
  refine ⟨?_, ?_, ?_⟩
  · simp [initLoopState, expectedResults_length]
  · intro i r hr s hs
    simp only [initLoopState, List.nil_append] at hr
    rw [expectedResults_getElem?] at hr
    rw [hs] at hr
    simp only [Option.map_some'] at hr
    have hri : r = stepResultAt liveOf (0 + i) s := by
      exact (Option.some.injEq _ _ ▸ hr).symm
    subst hri
    simp [stepResultAt, passOf, beq_iff_eq]
  · intro c₁ c₂ l₁ l₂ h1 h2
    simp [passOf, h1, h2]

/-- C2 witness: a one-step replay against changed live content records exactly
one result. -/
theorem c2_witness :
    (replayLoop exLiveMismatch exNoNavFail [exStep] 0 initLoopState).results.length = 1 :=
  (c2_pass_iff_normalized_firstP_eq [exStep] exLiveMismatch exNoNavFail (fun _ _ => rfl)).1

/-- C4: in any run, the first failing comparison (at 0-based index `k`, all
earlier steps passing, no navigation failure) produces exactly the single
mismatch alert of that step, later mismatches adding nothing; and whatever the
oracles — however many steps mismatch or crash — the latch admits at most one
alert per run. -/
theorem c4_first_mismatch_single_alert (steps : List Step)
    (liveOf : Nat → ContentSnapshot) (navFail : Nat → Option String) (k : Nat) (sk : Step)
    (hnav : ∀ j, j < steps.length → navFail j = none)
    (hk : steps[k]? = some sk)
    (hfail : passOf sk.content (liveOf k) = false)
    (hmin : ∀ j, j < k → ∀ sj, steps[j]? = some sj → passOf sj.content (liveOf j) = true) :
    ((replayLoop liveOf navFail steps 0 initLoopState).alerts =
      [mkMismatchAlert k sk (normalize sk.content.firstP) (normalize (liveOf k).firstP)]) ∧
    (∀ (steps₂ : List Step) (liveOf₂ : Nat → ContentSnapshot)
      (navFail₂ : Nat → Option String),
      (replayLoop liveOf₂ navFail₂ steps₂ 0 initLoopState).alerts.length ≤ 1) := by
  constructor
  · have hnav' : ∀ j, j < steps.length → navFail (0 + j) = none := by
      intro j hj; simpa using hnav j hj
    rw [replayLoop_no_crash liveOf navFail steps 0 initLoopState hnav']
    have hfail' : passOf sk.content (liveOf (0 + k)) = false := by simpa using hfail
    have hmin' : ∀ j, j < k → ∀ sj, steps[j]? = some sj →
        passOf sj.content (liveOf (0 + j)) = true := by
      intro j hj sj hsj; simpa using hmin j hj sj hsj
    have := firstMismatchAlert_eq_of_first_fail liveOf steps 0 k sk hk hfail' hmin'
    simpa [initLoopState] using this
  · intro steps₂ liveOf₂ navFail₂
    exact replayLoop_alerts_le_one liveOf₂ navFail₂ steps₂ 0 initLoopState
      (fun _ => rfl) (by simp [initLoopState])

/-- C4 witness: a one-step mismatching replay sends exactly the first step's
alert. -/
theorem c4_witness :
    (replayLoop exLiveMismatch exNoNavFail [exStep] 0 initLoopState).alerts =
      [mkMismatchAlert 0 exStep (normalize exSnapshot.firstP)
        (normalize exSnapshotLive.firstP)] :=
  (c4_first_mismatch_single_alert [exStep] exLiveMismatch exNoNavFail 0 exStep
    (fun _ _ => rfl) rfl (by decide) (fun j hj => absurd hj (Nat.not_lt_zero j))).1

/-- C5: when the navigation of the step at 0-based index `k` throws (all
earlier navigations succeeding), the run completes with StepResults for
exactly the first `k` steps, the browser is closed, the report holds exactly
those results, and the crash alert carrying the error reason is sent precisely
when no mismatch among the completed steps already triggered an alert. -/
theorem c5_crash_aborts_with_partial_report (steps : List Step) (store : StoreFile)
    (env : Env) (liveOf : Nat → ContentSnapshot) (navFail : Nat → Option String)
    (k : Nat) (r : String)
    (henv : envComplete env = true)
    (hk : k < steps.length)
    (hpre : ∀ j, j < k → navFail j = none)
    (hcrash : navFail k = some r) :
    ∃ run, replayMain (saveSteps steps store) env liveOf navFail =
        MainOutcome.completed run ∧
      run.results = expectedResults liveOf 0 (steps.take k) ∧
      run.results.length = k ∧
      run.browserClosed = true ∧
      run.reportEntries = run.results ∧
      (anyFail liveOf 0 (steps.take k) = false → run.alerts = [Alert.crashed r]) ∧
      (anyFail liveOf 0 (steps.take k) = true →
        run.alerts = firstMismatchAlert liveOf 0 (steps.take k) ∧
        ∀ reason, Alert.crashed reason ∉ run.alerts) := by
  have hne : steps ≠ [] := by
    intro h; subst h; simp at hk
  have hpre' : ∀ j, j < k → navFail (0 + j) = none := by
    intro j hj; simpa using hpre j hj
  have hcrash' : navFail (0 + k) = some r := by simpa using hcrash
  have hloop := replayLoop_crash liveOf navFail k steps 0 initLoopState r hk hpre' hcrash'
  refine ⟨{ results := (replayLoop liveOf navFail steps 0 initLoopState).results,
            alerts := (replayLoop liveOf navFail steps 0 initLoopState).alerts,
            browserClosed := true,
            reportEntries := (replayLoop liveOf navFail steps 0 initLoopState).results },
    ?_, ?_, ?_, rfl, rfl, ?_, ?_⟩
  · simp only [replayMain, loadSteps_saveSteps]
    rw [if_neg (by simp [List.isEmpty_iff, hne]), if_neg (by simp [henv])]
  · rw [hloop]; simp [initLoopState]
  · rw [hloop]
    simp [initLoopState, expectedResults_length, List.length_take, Nat.min_eq_left hk.le]
  · intro hnone
    rw [hloop]
    simp [initLoopState, hnone]
  · intro hsome
    rw [hloop]
    refine ⟨by simp [initLoopState, hsome], ?_⟩
    intro reason
    simp only [initLoopState, hsome, List.nil_append, if_true, if_false]
    simpa using crashed_not_mem_firstMismatchAlert liveOf (steps.take k) 0 reason

/-- C5 witness: two recorded steps, the first passing, the navigation of the
second timing out. -/
theorem c5_witness :
    ∃ run, replayMain (saveSteps [exStep, exStep2] none) exEnv exLiveMatch exNavFailAt1 =
        MainOutcome.completed run ∧
      run.results = expectedResults exLiveMatch 0 ([exStep, exStep2].take 1) ∧
      run.results.length = 1 ∧
      run.browserClosed = true ∧
      run.reportEntries = run.results ∧
      (anyFail exLiveMatch 0 ([exStep, exStep2].take 1) = false →
        run.alerts = [Alert.crashed "page.goto: Timeout 30000ms exceeded."]) ∧
      (anyFail exLiveMatch 0 ([exStep, exStep2].take 1) = true →
        run.alerts = firstMismatchAlert exLiveMatch 0 ([exStep, exStep2].take 1) ∧
        ∀ reason, Alert.crashed reason ∉ run.alerts) :=
  c5_crash_aborts_with_partial_report [exStep, exStep2] none exEnv exLiveMatch exNavFailAt1
    1 "page.goto: Timeout 30000ms exceeded." (by decide) (by decide)
    (by intro j hj; have hj0 : j = 0 := by omega
        subst hj0; rfl)
    rfl

/-- An environment with the host variable unset, used to evaluate the
configuration check. -/
def exEnvMissingHost : Env :=
  ⟨none, some "587", some "replaybot", some "secret", some "alerts@example.org", none⟩

/-- C3 counterexample: with the store holding an empty step list and the full
alert configuration present, the replayer exits before launching the browser
with exit code 0 (`process.exit(0)`, `replay.ts` line 95) — not the non-zero
code the claim requires for an empty sequence. -/
theorem c3_counterexample_empty_steps_exit_zero :
    replayMain (saveSteps [] none) exEnv exLiveMatch exNoNavFail =
      MainOutcome.earlyExit 0 ∧
    exitsNonZero (replayMain (saveSteps [] none) exEnv exLiveMatch exNoNavFail) = false ∧
    browserLaunched (replayMain (saveSteps [] none) exEnv exLiveMatch exNoNavFail) = false :=
  ⟨rfl, rfl, rfl⟩

/-- C3 amended: the replayer exits non-zero, before any browser is launched,
when the step store file is absent and when (the store holding a non-empty
sequence) any required alert-transport value is missing or empty; when the
loaded step sequence is empty it still exits before launching the browser, but
with exit code 0. -/
theorem c3_early_exits (env : Env) (steps : List Step) (store : StoreFile)
    (liveOf : Nat → ContentSnapshot) (navFail : Nat → Option String)
    (hne : steps ≠ []) (hmiss : envComplete env = false) :
    (replayMain none env liveOf navFail = MainOutcome.earlyExit 1 ∧
      browserLaunched (replayMain none env liveOf navFail) = false) ∧
    (replayMain (saveSteps steps store) env liveOf navFail = MainOutcome.earlyExit 1 ∧
      browserLaunched (replayMain (saveSteps steps store) env liveOf navFail) = false) ∧
    (replayMain (saveSteps [] store) env liveOf navFail = MainOutcome.earlyExit 0 ∧
      browserLaunched (replayMain (saveSteps [] store) env liveOf navFail) = false) := by
  have hmain : replayMain (saveSteps steps store) env liveOf navFail =
      MainOutcome.earlyExit 1 := by
    simp only [replayMain, loadSteps_saveSteps]
    rw [if_neg (by simp [List.isEmpty_iff, hne]), if_pos (by simp [hmiss])]
  have hempty : replayMain (saveSteps [] store) env liveOf navFail =
      MainOutcome.earlyExit 0 := by
    simp [replayMain, loadSteps_saveSteps]
  refine ⟨⟨rfl, rfl⟩, ⟨hmain, ?_⟩, ⟨hempty, ?_⟩⟩
  · rw [hmain]; rfl
  · rw [hempty]; rfl

/-- C3 witness: the three early-exit paths evaluated at a concrete missing-host
environment and a concrete non-empty step list. -/
theorem c3_witness :
    replayMain none exEnvMissingHost exLiveMatch exNoNavFail = MainOutcome.earlyExit 1 ∧
    replayMain (saveSteps [exStep] none) exEnvMissingHost exLiveMatch exNoNavFail =
      MainOutcome.earlyExit 1 ∧
    replayMain (saveSteps [] none) exEnvMissingHost exLiveMatch exNoNavFail =
      MainOutcome.earlyExit 0 :=
  ⟨(c3_early_exits exEnvMissingHost [exStep] none exLiveMatch exNoNavFail
      (by decide) rfl).1.1,
   (c3_early_exits exEnvMissingHost [exStep] none exLiveMatch exNoNavFail
      (by decide) rfl).2.1.1,
   (c3_early_exits exEnvMissingHost [exStep] none exLiveMatch exNoNavFail
      (by decide) rfl).2.2.1⟩

/-- C6: saving a (non-empty) step sequence with the recorder's store-write and
loading it back with the replayer's store-read returns the same sequence in
the same order. -/
theorem c6_store_round_trip (steps : List Step) (store : StoreFile) (_hne : steps ≠ []) :
    loadSteps (saveSteps steps store) = Except.ok steps :=
  loadSteps_saveSteps steps store

/-- C6 witness: the round trip evaluated on a concrete two-step sequence. -/
theorem c6_witness :
    loadSteps (saveSteps [exStep, exStep2] none) = Except.ok [exStep, exStep2] :=
  c6_store_round_trip [exStep, exStep2] none (by decide)

/-- C7: the click listener derives `a#<id>` for an anchor with an id, else
`a[href="<raw-attribute>"]` for an anchor with a truthy `href` attribute; when
neither can be formed, or the derived selector is empty or equals the bare tag
name `a`, no step is recorded for the click. -/
theorem c7_selector_derivation (a : Anchor) :
    (a.id ≠ "" → deriveSelector a = "a#" ++ a.id) ∧
    (a.id = "" → ∀ h, a.hrefAttr = some h → h ≠ "" →
      deriveSelector a = "a[href=\"" ++ h ++ "\"]") ∧
    (a.id = "" → (a.hrefAttr = none ∨ a.hrefAttr = some "") → clickRecorded a = false) ∧
    ((deriveSelector a = "" ∨ deriveSelector a = "a") → clickRecorded a = false) := by
  rcases a with ⟨id, hrefAttr, href⟩
  refine ⟨?_, ?_, ?_, ?_⟩
  · intro hid
    simp only at hid
    simp [deriveSelector, hid]
  · intro hid h hh hne
    simp only at hid hh
    subst hid; subst hh
    simp [deriveSelector, hne]
  · intro hid hattr
    simp only at hid hattr
    subst hid
    have hsel : deriveSelector ⟨"", hrefAttr, href⟩ = "" := by
      rcases hattr with h | h <;> subst h <;> simp [deriveSelector]
    by_cases hhref : href = ""
    · simp [clickRecorded, clickListener, hhref]
    · simp [clickRecorded, clickListener, hhref, hsel]
  · intro hsel
    by_cases hhref : href = ""
    · simp [clickRecorded, clickListener, hhref]
    · rcases hsel with h | h
      · simp [clickRecorded, clickListener, hhref, h]
      · simp [clickRecorded, clickListener, hhref, h, recordClickAccepts]

/-- C7 witness: the three spec examples — `<a id="x" href="/y">` yields `a#x`,
an id-less anchor with `href="/z"` yields `a[href="/z"]`, and an anchor with
neither records no step. -/
theorem c7_witness :
    deriveSelector ⟨"x", some "/y", "https://example.org/y"⟩ = "a#x" ∧
    deriveSelector ⟨"", some "/z", "https://example.org/z"⟩ = "a[href=\"/z\"]" ∧
    clickRecorded ⟨"", none, ""⟩ = false :=
  ⟨(c7_selector_derivation ⟨"x", some "/y", "https://example.org/y"⟩).1 (by decide),
   (c7_selector_derivation ⟨"", some "/z", "https://example.org/z"⟩).2.1 rfl "/z" rfl
     (by decide),
   (c7_selector_derivation ⟨"", none, ""⟩).2.2.1 rfl (Or.inl rfl)⟩

/-- C8: the shutdown latch makes `gracefulExit` idempotent — a second (or any
further) trigger performs no additional save and no additional exit: any
non-zero number of consecutive triggers from the initial state yields exactly
one save and one process termination. -/
theorem c8_shutdown_idempotent :
    (∀ st : RecorderState, gracefulExit (gracefulExit st) = gracefulExit st) ∧
    (∀ n : Nat, 1 ≤ n →
      (gracefulExit^[n] recorderInit).saveCount = 1 ∧
      (gracefulExit^[n] recorderInit).exitCount = 1 ∧
      (gracefulExit^[n] recorderInit).shuttingDown = true) := by
  have hfix : ∀ m : Nat, gracefulExit^[m] ⟨true, 1, 1⟩ = ⟨true, 1, 1⟩ := by
    intro m
    induction m with
    | zero => rfl
    | succ p ih => rw [Function.iterate_succ_apply, gracefulExit]; simpa using ih
  constructor
  · intro st
    rcases st with ⟨sd, sc, ec⟩
    cases sd <;> simp [gracefulExit]
  · intro n hn
    obtain ⟨m, rfl⟩ : ∃ m, n = m + 1 := ⟨n - 1, by omega⟩
    rw [Function.iterate_succ_apply]
    have h1 : gracefulExit recorderInit = ⟨true, 1, 1⟩ := rfl
    rw [h1, hfix m]
    exact ⟨rfl, rfl, rfl⟩

/-- C8 witness: two consecutive shutdown triggers still yield exactly one save
and one exit. -/
theorem c8_witness :
    (gracefulExit^[2] recorderInit).saveCount = 1 ∧
    (gracefulExit^[2] recorderInit).exitCount = 1 :=
  ⟨(c8_shutdown_idempotent.2 2 (by decide)).1,
   (c8_shutdown_idempotent.2 2 (by decide)).2.1⟩

/-- C9 (frame property): in a crash-free replay every produced `StepResult`
carries the recorded step's fields unchanged — its `Step` projection equals
the original step, so `selector`, `url`, `target_href`, `content` and
`timestamp` are preserved — only `liveContent` and `pass` are added (the two
fields `StepResult` adds to `Step` by definition), and the input step
sequence reappears untouched in the results. -/
theorem c9_stepresult_preserves_step (steps : List Step)
    (liveOf : Nat → ContentSnapshot) (navFail : Nat → Option String)
    (hnav : ∀ j, j < steps.length → navFail j = none) :
    ((replayLoop liveOf navFail steps 0 initLoopState).results.length = steps.length) ∧
    ((replayLoop liveOf navFail steps 0 initLoopState).results.map StepResult.toStep =
      steps) ∧
    (∀ i r, (replayLoop liveOf navFail steps 0 initLoopState).results[i]? = some r →
      ∀ s, steps[i]? = some s →
        r.toStep = s ∧ r.liveContent = liveOf i ∧ r.pass = passOf s.content (liveOf i)) := by
  have hnav' : ∀ j, j < steps.length → navFail (0 + j) = none := by
    intro j hj; simpa using hnav j hj
  rw [replayLoop_no_crash liveOf navFail steps 0 initLoopState hnav']
  have hmap : ∀ (i : Nat) (l : List Step),
      (expectedResults liveOf i l).map StepResult.toStep = l := by
    intro i l
    induction l generalizing i with
    | nil => rfl
    | cons s rest ih => simp [expectedResults, stepResultAt, ih]
  refine ⟨?_, ?_, ?_⟩
  · simp [initLoopState, expectedResults_length]
  · simp only [initLoopState, List.nil_append]
    exact hmap 0 steps
  · intro i r hr s hs
    simp only [initLoopState, List.nil_append] at hr
    rw [expectedResults_getElem?, hs] at hr
    simp only [Option.map_some'] at hr
    have hri : r = stepResultAt liveOf (0 + i) s := by
      exact (Option.some.injEq _ _ ▸ hr).symm
    subst hri
    exact ⟨rfl, by simp [stepResultAt], by simp [stepResultAt]⟩

/-- C9 witness: a one-step replay whose result projects back to the recorded
step. -/
theorem c9_witness :
    (replayLoop exLiveMismatch exNoNavFail [exStep] 0 initLoopState).results.map
      StepResult.toStep = [exStep] :=
  (c9_stepresult_preserves_step [exStep] exLiveMismatch exNoNavFail (fun _ _ => rfl)).2.1

/-- C10: `normalize` is total over optional strings — an absent value
normalizes to the empty string — and idempotent: re-normalizing a normalized
string changes nothing. Consequently a recorded step whose `firstP` is
missing passes exactly when the live page's normalized `firstP` is empty. -/
theorem c10_normalize_total_idempotent :
    (normalize none = "") ∧
    (∀ s : Option String, normalize (some (normalize s)) = normalize s) ∧
    (∀ c l : ContentSnapshot, c.firstP = none →
      (passOf c l = true ↔ normalize l.firstP = "")) := by
  refine ⟨rfl, ?_, ?_⟩
  · intro s
    show normStr (normStr (s.getD "")) = normStr (s.getD "")
    exact normStr_idem (s.getD "")
  · intro c l hc
    rw [passOf, hc]
    show ((normalize none == normalize l.firstP) = true ↔ _)
    rw [beq_iff_eq]
    constructor
    · intro h; exact h.symm
    · intro h; exact h.symm

/-- C10 witness: idempotence and the missing-`firstP` comparison evaluated at
concrete values. -/
theorem c10_witness :
    (normalize (some (normalize (some "  two   words \t"))) =
      normalize (some "  two   words \t")) ∧
    (passOf ⟨none, none, none, none, none⟩ ⟨none, none, some " \n ", none, none⟩ = true ↔
      normalize (some " \n ") = "") :=
  ⟨c10_normalize_total_idempotent.2.1 (some "  two   words \t"),
   c10_normalize_total_idempotent.2.2 ⟨none, none, none, none, none⟩
     ⟨none, none, some " \n ", none, none⟩ rfl⟩

end WebRecorder
